import Mathlib

/-!
Verification of the `nuxt-og-image` module setup and binding registry.

This development shallowly embeds the two shown variants of the module
`setup` routine (`src/module.ts`, newer, and the unnamed older variant),
the engine binding registry (`src/runtime/core/renderers/satori/instances.ts`),
and the font normalization pipeline, and proves or refutes the frozen
claims about them.

Conventions:
* JS string primitives (`split`, `startsWith`, template-literal coercion of
  `undefined`) are modelled over `List Char`, matching JS semantics.
* JS `undefined`/optional fields become `Option`; JS truthiness of strings
  (`""` is falsy) is modelled by `truthyOpt`.
* The `defu(overlay, base)` merge (overlay wins per defined field) is
  modelled field by field on the compatibility-override records.
-/

namespace OgImage

/-- Models JS `String.prototype.split` with a single-character separator
(`f.split(':')` in the source). -/
def jsSplit (sep : Char) (s : String) : List String :=
  (s.toList.splitOn sep).map fun cs => String.mk cs

/-- Models JS `String.prototype.startsWith`. -/
def jsStartsWith (s p : String) : Bool :=
  p.toList.isPrefixOf s.toList

/-- Models JS template-literal coercion: interpolating `undefined` yields
the text "undefined". -/
def jsStr (o : Option String) : String :=
  o.getD "undefined"

/-- JS truthiness of an optional string field: `undefined` and `""` are
falsy, everything else truthy. -/
def truthyOpt : Option String → Bool
  | some s => !(s == "")
  | none => false

/-! ## Font model

`InputFontConfig = string | FontConfig` from `runtime/types`; the record
form has `name`, `weight` and the optional source fields `path` (local
file) and `key` (server asset). -/

/-- An entry of the `fonts` module option: either the string shorthand
`"Name:weight"` or a record. -/
inductive InputFontConfig
  | str (s : String)
  | font (name weight : String) (path key : Option String)
  deriving DecidableEq

/-- The uniform `FontConfig` shape produced by `normalisedFonts` in
`src/module.ts` (`modules:done` hook). `weight` is optional because a
shorthand without a `:` leaves the destructured `weight` undefined. -/
structure FontConfig where
  name : String
  weight : Option String
  path : Option String
  key : Option String
  deriving DecidableEq

/-- `normalisedFonts` mapping from `src/module.ts` lines 422-432: a string
shorthand is split on `:` into name and weight and becomes a record with
`path: undefined` (and no `key` property at all); records pass through. -/
def normaliseFont : InputFontConfig → FontConfig
  | .str s =>
    let parts := jsSplit ':' s
    { name := parts.headD "", weight := parts[1]?, path := none, key := none }
  | .font n w p k => { name := n, weight := some w, path := p, key := k }

/-- The prerender font-route registration from `src/module.ts` lines
436-441: every normalised font with neither a `path` nor a `key` gets a
`/__og-image__/font/<name>/<weight>.ttf` prerender route (these are the
fonts fetched remotely at build time). -/
def prerenderFontRoutes (fonts : List FontConfig) : List String :=
  (fonts.filter fun f => !truthyOpt f.path && !truthyOpt f.key).map
    fun f => "/__og-image__/font/" ++ f.name ++ "/" ++ jsStr f.weight ++ ".ttf"

/-- The per-entry body of the `stackblitz` font rewrite in `src/module.ts`
lines 242-257, returning the mapped entry (`none` models `return false`,
removed by the trailing `.filter(Boolean)`) together with whether the
branch emitted the skip warning. `Inter:*` shorthands are rewritten to the
bundled server-asset descriptor; any other shorthand, and any record with
neither a truthy `path` nor a truthy `key`, is dropped with a warning. -/
def stackblitzMapFontW (f : InputFontConfig) : Option InputFontConfig × Bool :=
  match f with
  | .str s =>
    if jsStartsWith s "Inter:" then
      let weight := jsStr (jsSplit ':' s)[1]?
      (some (.font "Inter" weight none
        (some ("nuxt-og-image:fonts:inter-latin-ext-" ++ weight ++ "-normal.woff"))), false)
    else
      (none, true)
  | .font n w p k =>
    if !truthyOpt p && !truthyOpt k then (none, true) else (some (.font n w p k), false)

/-- The kept-entry part of the `stackblitz` rewrite. -/
def stackblitzMapFont (f : InputFontConfig) : Option InputFontConfig :=
  (stackblitzMapFontW f).1

/-- Whether the `stackblitz` rewrite warns about (and drops) the entry. -/
def stackblitzWarn (f : InputFontConfig) : Bool :=
  (stackblitzMapFontW f).2

/-- The font-list portion of `setup` in `src/module.ts` lines 236-257, in
source order: if the configured list is empty the Inter default pair is
injected first, and then, only on the `stackblitz` preset, the list is
rewritten/filtered by `stackblitzMapFont`. -/
def resolveFonts (preset : String) (fonts : List InputFontConfig) : List InputFontConfig :=
  let fonts1 := if fonts.isEmpty then [.str "Inter:400", .str "Inter:700"] else fonts
  if preset == "stackblitz" then fonts1.filterMap stackblitzMapFont else fonts1

/-! ## Compatibility model (`setup` in `src/module.ts`, lines 164-228)

The static preset table itself lives in `compatibility.ts`, which is not
among the provided sources; `setup` only consumes its `bindings` record. -/

/-- The `bindings` record of a preset entry of the static compatibility
table (`getPresetNitroPresetCompatibility(preset).bindings`), restricted
to the two engines `setup` probes. -/
structure Bindings where
  sharp : Bool
  chromium : Bool
  deriving DecidableEq

/-- One phase of the user-facing `CompatibilityConfig`: per engine, an
optional override (`undefined` = not overridden). -/
structure CompatOverride where
  sharp : Option Bool := none
  chromium : Option Bool := none
  deriving DecidableEq

/-- The `compatibility` module option: per-phase engine overrides. -/
structure CompatibilityConfig where
  runtime : CompatOverride := {}
  dev : CompatOverride := {}
  prerender : CompatOverride := {}
  deriving DecidableEq

/-- `defu` on one optional field: the overlay wins when defined. -/
def defuField (a b : Option Bool) : Option Bool :=
  match a with
  | some x => some x
  | none => b

/-- `defu` on one phase record. -/
def defuOverride (a b : CompatOverride) : CompatOverride :=
  { sharp := defuField a.sharp b.sharp, chromium := defuField a.chromium b.chromium }

/-- `defu(overlay, config.compatibility)` as used in `setup`. -/
def defuCompat (a b : CompatibilityConfig) : CompatibilityConfig :=
  { runtime := defuOverride a.runtime b.runtime
    dev := defuOverride a.dev b.dev
    prerender := defuOverride a.prerender b.prerender }

/-- The environment `setup` probes: the resolved preset name, its static
`bindings`, and the three local probes (`tryResolveModule('sharp')`,
`Launcher.getFirstInstallation()`, `tryResolveModule('playwright')`). -/
structure SetupEnv where
  preset : String
  bindings : Bindings
  hasSharpDependency : Bool
  hasChromeLocally : Bool
  hasPlaywrightDependency : Bool
  deriving DecidableEq

/-- `userConfiguredExtension && ['jpeg', 'jpg'].includes(userConfiguredExtension)`. -/
def hasConfiguredJpegs (userExt : Option String) : Bool :=
  match userExt with
  | some e => e == "jpeg" || e == "jpg"
  | none => false

/-- Result of the sharp/extension block of the newer `setup`
(`src/module.ts` lines 167-195): the value left in
`config.defaults.extension`, the updated `config.compatibility`, the
warnings logged, and whether `ensureDependencies(['sharp'])` ran. -/
structure SharpStageResult where
  extension : String
  compat : CompatibilityConfig
  warnings : List String
  installsSharp : Bool
  deriving DecidableEq

/-- The sharp/extension block of the newer `setup` (`src/module.ts` lines
167-195). Note that when the user configured jpegs and sharp is installed
but unsupported by the target, `config.defaults.extension` is left at the
user value; only the runtime `sharp` compatibility is force-disabled. -/
def sharpStageNew (env : SetupEnv) (userExt : Option String) (renderer : String)
    (c : CompatibilityConfig) : SharpStageResult :=
  let extension := userExt.getD
    (if env.hasSharpDependency && env.bindings.sharp then "jpg" else "png")
  if hasConfiguredJpegs userExt && !(renderer == "chromium") then
    if env.hasSharpDependency && !env.bindings.sharp then
      { extension := extension
        compat := defuCompat { runtime := { sharp := some false } } c
        warnings := ["Rendering JPEGs requires sharp which does not work with "
          ++ env.preset ++ ". Images will be rendered as PNG at runtime."]
        installsSharp := false }
    else if !env.hasSharpDependency then
      { extension := extension
        compat := c
        warnings := ["You have enabled `JPEG` images. These require the `sharp` dependency which is missing, installing it for you.",
          "Support for `sharp` is limited so check the compatibility guide."]
        installsSharp := true }
    else
      { extension := extension, compat := c, warnings := [], installsSharp := false }
  else if !env.hasSharpDependency then
    { extension := extension
      compat := defuCompat
        { runtime := { sharp := some false }
          dev := { sharp := some false }
          prerender := { sharp := some false } } c
      warnings := []
      installsSharp := false }
  else
    { extension := extension, compat := c, warnings := [], installsSharp := false }

/-- The chromium probe block of the newer `setup` (`src/module.ts` lines
197-228), updating `config.compatibility`. When Chrome is installed
locally, `dev` and `prerender` chromium are enabled unconditionally on the
static table; runtime chromium is only enabled through the playwright
branch, which checks `targetCompatibility.bindings.chromium`. -/
def chromiumStage (env : SetupEnv) (c : CompatibilityConfig) : CompatibilityConfig :=
  if !env.hasChromeLocally && !env.hasPlaywrightDependency then
    defuCompat
      { runtime := { chromium := some false }
        dev := { chromium := some false }
        prerender := { chromium := some false } } c
  else if env.hasChromeLocally then
    defuCompat
      { runtime := { chromium := some false }
        dev := { chromium := some true }
        prerender := { chromium := some true } } c
  else if env.hasPlaywrightDependency && env.bindings.chromium then
    defuCompat
      { runtime := { chromium := some true }
        dev := { chromium := some true }
        prerender := { chromium := some true } } c
  else
    c

/-- The complete compatibility-override computation of the newer `setup`:
the sharp block followed by the chromium block, starting from the
user-supplied `config.compatibility`. -/
def setupCompat (env : SetupEnv) (userExt : Option String) (renderer : String)
    (c : CompatibilityConfig) : CompatibilityConfig :=
  chromiumStage env (sharpStageNew env userExt renderer c).compat

/-- Modelled from the spec: the code combining the per-phase
`config.compatibility` overrides with the static preset table lives in
`compatibility.ts`, which is not among the provided sources. Per the spec
(§4.2, §6) the overrides "manually modify the compatibility" of the named
deployment target, so an engine's resolved availability in a phase is its
override when one is set and otherwise the static table entry. -/
def resolvePhase (table : Bindings) (o : CompatOverride) : Bindings :=
  { sharp := (o.sharp).getD table.sharp, chromium := (o.chromium).getD table.chromium }

/-- Result of the sharp/extension block of the older `setup` variant. -/
structure SharpStageOldResult where
  extension : String
  warnings : List String
  deriving DecidableEq

/-- The sharp/extension block of the older `setup` variant (unnamed source,
lines 166-173): the default extension starts at the user value or `jpg`,
and is overwritten with `png` whenever the target lacks sharp and the
renderer is not chromium, warning if the user had asked for jpegs. -/
def sharpStageOld (bindingsSharp : Bool) (userExt : Option String)
    (renderer : String) : SharpStageOldResult :=
  let ext0 := userExt.getD "jpg"
  if !bindingsSharp && !(renderer == "chromium") then
    { extension := "png"
      warnings :=
        if hasConfiguredJpegs userExt then
          ["The sharp runtime is not available for this target, disabling sharp and using png instead."]
        else [] }
  else
    { extension := ext0, warnings := [] }

/-- The chromium block of the older `setup` variant (unnamed source, lines
175-178): the single `runtimeChromium` flag (user opt-in, defaulting to
dev mode) is forced off when the static table lacks chromium, and is
otherwise left as the user set it. -/
def runtimeChromiumOld (runtimeChromium bindingsChromium : Bool) : Bool :=
  if runtimeChromium && !bindingsChromium then false else runtimeChromium

/-! ## Setup effect trace (`setup` in `src/module.ts`)

`setup` is modelled as the list of externally visible actions it performs,
in source order. Only the two logger calls happen before the early
returns; everything else registers something with Nuxt/Nitro. -/

/-- An externally visible action of `setup`. -/
inductive Effect
  | log (msg : String)
  | warn (msg : String)
  | ensureChromium
  | installSiteConfig
  | serverPlugin (src : String)
  | serverHandler (route : String)
  | composable (name : String)
  | componentsDir (path : String)
  | component (name : String)
  | plugin (src : String)
  | template (filename : String)
  | runtimeConfigSet
  | devHandler
  | devtoolsUI
  | generateHandler
  | buildHandler
  | prerenderHandler
  deriving DecidableEq

/-- `true` exactly for the two pure logger effects. -/
def Effect.isMessageOnly : Effect → Bool
  | .log _ => true
  | .warn _ => true
  | _ => false

/-- The module options consumed by the modelled part of `setup`. -/
structure ModuleConfig where
  enabled : Bool
  debug : Bool
  extension : Option String
  renderer : String
  fonts : List InputFontConfig
  deriving DecidableEq

/-- The Nuxt options consumed by the modelled part of `setup`. -/
structure NuxtOptions where
  ssr : Bool
  dev : Bool
  isGenerate : Bool
  isBuild : Bool
  hasNuxtContent : Bool
  deriving DecidableEq

/-- `logger.debug` message of the `enabled: false` early return. -/
def disabledMsg : String := "The module is disabled, skipping setup."

/-- `logger.warn` message of the SSR-disabled early return. -/
def ssrWarnMsg : String :=
  "Nuxt OG Image is enabled but SSR is disabled.\n\nYou should enable SSR (`ssr: true`) or disable the module (`ogImage: { enabled: false }`)."

/-- `logger.info` message of the missing-chromium branch. -/
def chromiumMissingMsg : String :=
  "You are missing a chromium install. You will not be able to prerender images using the chromium render."

/-- The skip warning of the `stackblitz` font rewrite, naming the entry. -/
def fontSkipMsg (f : InputFontConfig) : String :=
  let nm := match f with
    | .str s => s
    | .font n w _ _ => n ++ ":" ++ w
  "The " ++ nm ++ " font was skipped because remote fonts are not available in StackBlitz, please use a local font."

/-- The effect trace of the newer `setup` (`src/module.ts` lines 150-489),
in source order: the two early returns, then sharp warnings, chromium
probe actions, site-config install, optional nuxt-content plugin, the
`stackblitz` font warnings, the three server handlers (debug.json only
when `config.debug || nuxt.options.dev`), the three composables, the
community templates dir, the two global components, the two server-side
plugins, the components template, the runtime-config assignment hook, the
dev/generate/build handler, the prerender server plugin, and the
prerender handler. -/
def setupEffects (cfg : ModuleConfig) (nx : NuxtOptions) (env : SetupEnv) : List Effect :=
  if cfg.enabled == false then
    [.log disabledMsg]
  else if cfg.enabled && !nx.ssr then
    [.warn ssrWarnMsg]
  else
    let sharpRes := sharpStageNew env cfg.extension cfg.renderer {}
    let fonts1 := if cfg.fonts.isEmpty then
        [InputFontConfig.str "Inter:400", InputFontConfig.str "Inter:700"]
      else cfg.fonts
    (sharpRes.warnings.map Effect.warn)
    ++ (if !env.hasChromeLocally && !env.hasPlaywrightDependency then
          (if nx.isGenerate then [Effect.ensureChromium]
           else if nx.isBuild then [Effect.log chromiumMissingMsg]
           else [])
        else [])
    ++ [Effect.installSiteConfig]
    ++ (if nx.hasNuxtContent then [Effect.serverPlugin "nuxt-content"] else [])
    ++ (if env.preset == "stackblitz" then
          (fonts1.filter stackblitzWarn).map fun f => Effect.warn (fontSkipMsg f)
        else [])
    ++ [Effect.serverHandler "/__og-image__/font/**"]
    ++ (if cfg.debug || nx.dev then [Effect.serverHandler "/__og-image__/debug.json"] else [])
    ++ [Effect.serverHandler "/__og-image__/image/**"]
    ++ (["defineOgImage", "defineOgImageComponent", "defineOgImageScreenshot"].map
          Effect.composable)
    ++ [Effect.componentsDir "Templates/Community"]
    ++ (["OgImage", "OgImageScreenshot"].map Effect.component)
    ++ [Effect.plugin "route-rule-og-image.server",
        Effect.plugin "og-image-canonical-urls.server"]
    ++ [Effect.template "nuxt-og-image/components.mjs"]
    ++ [Effect.runtimeConfigSet]
    ++ (if nx.dev then [Effect.devHandler, Effect.devtoolsUI]
        else if nx.isGenerate then [Effect.generateHandler]
        else if nx.isBuild then [Effect.buildHandler]
        else [])
    ++ (if nx.isBuild then [Effect.serverPlugin "prerender"] else [])
    ++ [Effect.prerenderHandler]

/-! ## Binding registry (`src/runtime/core/renderers/satori/instances.ts`)

Each engine's acquire function is
`inst.instance = inst.instance || await import('#...bindings/...').then(m => m.default)`
followed by an awaited wasm init and a re-read of the memo cell. The model
captures the suspension points of `useSatori`/`useResvg` (the `useSharp`
shape merges the last two atomic slices, so its interleavings are a subset
of those modelled). `import()` is modelled with ES module-map semantics:
the module-map lookup/registration is host-atomic, so the binding module
is evaluated at most once per process even when several `import()` calls
race. Engine handles are numbered by evaluation order; the handle a caller
ends with is whatever the memo cell holds at the final re-read. -/

namespace Registry

/-- The control point of one in-flight acquire call, between suspension
points. `assign h` holds the handle the caller's own `import()` resolved
to; `done r` holds what the final re-read of the memo cell returned. -/
inductive PC
  | start
  | assign (h : Nat)
  | awaitWasm
  | done (r : Option Nat)
  deriving DecidableEq

/-- Whether a caller has returned. -/
def PC.isDone : PC → Bool
  | .done _ => true
  | _ => false

/-- Process state: how many times the binding module was evaluated, the ES
module-map entry for the binding specifier, the memo cell
(`xInstance.instance`), and every caller's control point. -/
structure St where
  evals : Nat
  moduleCell : Option Nat
  cell : Option Nat
  callers : List PC
  deriving DecidableEq

/-- `import('#nuxt-og-image/bindings/...')` under ES module-map semantics:
an existing module-map entry is returned as is; otherwise the module is
evaluated (once) and registered. -/
def importBinding (s : St) : Nat × St :=
  match s.moduleCell with
  | some h => (h, s)
  | none => (s.evals, { s with evals := s.evals + 1, moduleCell := some s.evals })

/-- One atomic slice of one caller. From `start`: read the memo cell; a
truthy cell short-circuits the `||` (the caller proceeds to await the wasm
init), otherwise the caller starts `import()` and suspends. From
`assign h`: the awaited import resolved; store it in the memo cell, then
suspend on `initWasmPromise`. From `awaitWasm`: re-read the memo cell and
return its contents (`inst.instance!.satori`). -/
def stepCaller (s : St) (pc : PC) : PC × St :=
  match pc with
  | .start =>
    match s.cell with
    | some _ => (.awaitWasm, s)
    | none =>
      let r := importBinding s
      (.assign r.1, r.2)
  | .assign h => (.awaitWasm, { s with cell := some h })
  | .awaitWasm => (.done s.cell, s)
  | .done r => (.done r, s)

/-- Run one atomic slice of caller `i` (out-of-range indices are no-ops). -/
def step (s : St) (i : Nat) : St :=
  match s.callers[i]? with
  | none => s
  | some pc =>
    let r := stepCaller s pc
    { r.2 with callers := r.2.callers.set i r.1 }

/-- Run a whole interleaving schedule. -/
def run (s : St) (sched : List Nat) : St :=
  sched.foldl step s

/-- Fresh process with `n` concurrent acquire callers. -/
def init (n : Nat) : St :=
  { evals := 0, moduleCell := none, cell := none, callers := List.replicate n .start }

/-- Per-caller invariant, relative to the current shared state. -/
def PCInv (s : St) : PC → Prop
  | .start => True
  | .assign h => h = 0 ∧ s.moduleCell = some 0
  | .awaitWasm => s.cell = some 0
  | .done r => r = some 0 ∧ s.cell = some 0

/-- Global invariant: the module was evaluated at most once (handle `0`),
the memo cell only ever holds handle `0`, a populated memo cell implies a
populated module map, and every caller satisfies its local invariant. -/
def StInv (s : St) : Prop :=
  ((s.moduleCell = none ∧ s.evals = 0) ∨ (s.moduleCell = some 0 ∧ s.evals = 1)) ∧
  (s.cell = none ∨ s.cell = some 0) ∧
  (s.cell = some 0 → s.moduleCell = some 0) ∧
  (∀ pc ∈ s.callers, PCInv s pc)

end Registry

/-- One sequential acquire call of `useResvg`/`useSatori`/`useSharp` with
an explicit outcome for the (re-)attempted dynamic import: with an empty
memo cell, a rejected import skips the assignment (the cell stays empty)
and the rejection propagates; a resolved import is stored and returned; a
populated cell is returned without consulting the import at all. -/
def acquireOnce (importResult : Except String Nat) (cell : Option Nat) :
    Except String Nat × Option Nat :=
  match cell with
  | some h => (.ok h, some h)
  | none =>
    match importResult with
    | .error e => (.error e, none)
    | .ok h => (.ok h, some h)

/-! ## Registry lemmas -/

namespace Registry

/-- A fresh process satisfies the registry invariant. -/
theorem stInv_init (n : Nat) : StInv (init n) := by
  refine ⟨Or.inl ⟨rfl, rfl⟩, Or.inl rfl, ?_, ?_⟩
  · intro h
    simp [init] at h
  · intro pc hpc
    rw [List.eq_of_mem_replicate hpc]
    trivial

/-- `stepCaller` never touches the caller list. -/
theorem stepCaller_callers (s : St) (pc : PC) : (stepCaller s pc).2.callers = s.callers := by
  cases pc with
  | start =>
    unfold stepCaller
    cases s.cell with
    | some y => rfl
    | none =>
      unfold importBinding
      cases s.moduleCell <;> rfl
  | assign h => rfl
  | awaitWasm => rfl
  | done r => rfl

/-- One interleaving step preserves the caller count. -/
theorem step_length (s : St) (i : Nat) : (step s i).callers.length = s.callers.length := by
  unfold step
  cases hidx : s.callers[i]? with
  | none => rfl
  | some pc => simp [stepCaller_callers]

/-- Running a schedule preserves the caller count. -/
theorem run_length (s : St) (sched : List Nat) :
    (run s sched).callers.length = s.callers.length := by
  induction sched generalizing s with
  | nil => rfl
  | cons i rest ih => exact (ih (step s i)).trans (step_length s i)

/-- One interleaving step preserves the registry invariant. -/
theorem stInv_step (s : St) (i : Nat) (h : StInv s) : StInv (step s i) := by
  obtain ⟨ev, mc, cl, cs⟩ := s
  obtain ⟨hmod, hcell, hcm, hpcs⟩ := h
  simp only [StInv] at hmod hcell hcm hpcs ⊢
  unfold step
  dsimp only at hmod hcell hcm hpcs ⊢
  cases hidx : cs[i]? with
  | none =>
    simp only [hidx]
    exact ⟨hmod, hcell, hcm, hpcs⟩
  | some pc =>
    simp only [hidx]
    have hmem : pc ∈ cs := List.getElem?_mem hidx
    have hpcinv := hpcs pc hmem
    cases pc with
    | start =>
      cases cl with
      | some y =>
        have hy : y = 0 := by
          rcases hcell with h' | h'
          · exact absurd h' (by simp)
          · exact Option.some.inj h'
        subst hy
        dsimp only [stepCaller]
        refine ⟨hmod, Or.inr rfl, hcm, ?_⟩
        intro pc' hpc'
        rcases List.mem_or_eq_of_mem_set hpc' with hin | rfl
        · exact hpcs pc' hin
        · exact rfl
      | none =>
        cases mc with
        | some m =>
          have hm1 : m = 0 ∧ ev = 1 := by
            rcases hmod with h' | h'
            · exact absurd h'.1 (by simp)
            · exact ⟨Option.some.inj h'.1, h'.2⟩
          dsimp only [stepCaller, importBinding]
          refine ⟨hmod, hcell, hcm, ?_⟩
          intro pc' hpc'
          rcases List.mem_or_eq_of_mem_set hpc' with hin | rfl
          · exact hpcs pc' hin
          · exact ⟨hm1.1, by rw [hm1.1]⟩
        | none =>
          have he0 : ev = 0 := by
            rcases hmod with h' | h'
            · exact h'.2
            · cases h'.1
          subst he0
          dsimp only [stepCaller, importBinding]
          refine ⟨Or.inr ⟨rfl, rfl⟩, Or.inl rfl, ?_, ?_⟩
          · intro h'
            cases h'
          intro pc' hpc'
          rcases List.mem_or_eq_of_mem_set hpc' with hin | rfl
          · have hi := hpcs pc' hin
            cases pc' with
            | start => trivial
            | assign h' => cases hi.2
            | awaitWasm => cases hi
            | done r => cases hi.2
          · exact ⟨rfl, rfl⟩
    | assign h' =>
      obtain ⟨hh0, hmods⟩ := hpcinv
      subst hh0
      dsimp only [stepCaller]
      refine ⟨hmod, Or.inr rfl, fun _ => hmods, ?_⟩
      intro pc' hpc'
      rcases List.mem_or_eq_of_mem_set hpc' with hin | rfl
      · have hi := hpcs pc' hin
        cases pc' with
        | start => trivial
        | assign h'' => exact hi
        | awaitWasm => exact rfl
        | done r => exact ⟨hi.1, rfl⟩
      · exact rfl
    | awaitWasm =>
      have hs0 : cl = some 0 := hpcinv
      subst hs0
      dsimp only [stepCaller]
      refine ⟨hmod, Or.inr rfl, hcm, ?_⟩
      intro pc' hpc'
      rcases List.mem_or_eq_of_mem_set hpc' with hin | rfl
      · exact hpcs pc' hin
      · exact ⟨rfl, rfl⟩
    | done r =>
      dsimp only [stepCaller]
      refine ⟨hmod, hcell, hcm, ?_⟩
      intro pc' hpc'
      rcases List.mem_or_eq_of_mem_set hpc' with hin | rfl
      · exact hpcs pc' hin
      · exact hpcinv

/-- Running any schedule preserves the registry invariant. -/
theorem stInv_run (s : St) (sched : List Nat) (h : StInv s) : StInv (run s sched) := by
  induction sched generalizing s with
  | nil => exact h
  | cons i rest ih => exact ih (step s i) (stInv_step s i h)

end Registry

/-! ## Claim theorems -/

/-- C3: For every engine kind, the first acquire call performs the
engine's initialization, and every acquire call — including concurrent
calls issued before initialization completes, under any interleaving of
any number of callers — observes exactly one initialization (the binding
module is evaluated exactly once per process) and receives the same
engine handle (handle `0`, the one produced by that single evaluation). -/
theorem c3_binding_single_flight (n : Nat) (sched : List Nat)
    (hn : 0 < n)
    (hdone : ∀ pc ∈ (Registry.run (Registry.init n) sched).callers, pc.isDone = true) :
    (Registry.run (Registry.init n) sched).evals = 1 ∧
      ∀ pc ∈ (Registry.run (Registry.init n) sched).callers,
        pc = Registry.PC.done (some 0) := by
  obtain ⟨hmod, hcell, hcm, hpcs⟩ :=
    Registry.stInv_run (Registry.init n) sched (Registry.stInv_init n)
  have hlen : (Registry.run (Registry.init n) sched).callers.length = n := by
    rw [Registry.run_length]
    simp [Registry.init]
  have hall : ∀ pc ∈ (Registry.run (Registry.init n) sched).callers,
      pc = Registry.PC.done (some 0) := by
    intro pc hmemp
    have hd := hdone pc hmemp
    have hi := hpcs pc hmemp
    cases pc with
    | start => simp [Registry.PC.isDone] at hd
    | assign h => simp [Registry.PC.isDone] at hd
    | awaitWasm => simp [Registry.PC.isDone] at hd
    | done r => rw [hi.1]
  refine ⟨?_, hall⟩
  obtain ⟨pc0, hmem0⟩ := List.exists_mem_of_length_pos (by omega :
    0 < (Registry.run (Registry.init n) sched).callers.length)
  have hi0 := hpcs pc0 hmem0
  rw [hall pc0 hmem0] at hi0
  have hmc := hcm hi0.2
  rcases hmod with h' | h'
  · rw [h'.1] at hmc
    cases hmc
  · exact h'.2

/-- Witness for C3: two callers interleaved slice by slice (both issue
their `import()` before either assignment lands) still produce one module
evaluation and agree on handle `0`. -/
theorem c3_binding_single_flight_witness :
    (Registry.run (Registry.init 2) [0, 1, 0, 1, 0, 1]).evals = 1 ∧
      ∀ pc ∈ (Registry.run (Registry.init 2) [0, 1, 0, 1, 0, 1]).callers,
        pc = Registry.PC.done (some 0) :=
  c3_binding_single_flight 2 [0, 1, 0, 1, 0, 1] (by decide) (by decide)

/-- C4: For every engine kind, an acquire call whose dynamic import
rejects caches nothing — the memo cell stays empty and the error
propagates — and a later acquire call re-runs the initialization from
scratch (here: succeeding and caching the freshly imported handle); once
a handle is cached, later calls return it without consulting the import. -/
theorem c4_failed_init_not_cached (e : String) (h : Nat) (r : Except String Nat) :
    acquireOnce (.error e) none = (.error e, none) ∧
      acquireOnce (.ok h) (acquireOnce (.error e) none).2 = (.ok h, some h) ∧
      acquireOnce r (some h) = (.ok h, some h) := by
  exact ⟨rfl, rfl, rfl⟩

/-- The bundled Inter asset key produced by the `stackblitz` rewrite is
never the empty string (so the rewritten descriptor always has a truthy
`key`). -/
theorem interKey_ne_empty (x : String) :
    (("nuxt-og-image:fonts:inter-latin-ext-" ++ x ++ "-normal.woff") == "") = false := by
  rw [beq_eq_false_iff_ne]
  intro h
  have hlen := congrArg String.length h
  rw [String.length_append, String.length_append] at hlen
  have h1 : ("nuxt-og-image:fonts:inter-latin-ext-").length = 36 := by decide
  have h2 : ("-normal.woff").length = 12 := by decide
  have h3 : ("" : String).length = 0 := by decide
  omega

/-- On the `stackblitz` preset, `resolveFonts` is the rewrite/filter pass
over the (possibly default-injected) font list. -/
theorem resolveFonts_stackblitz (fonts : List InputFontConfig) :
    resolveFonts "stackblitz" fonts =
      (if fonts.isEmpty = true then
        [InputFontConfig.str "Inter:400", InputFontConfig.str "Inter:700"]
      else fonts).filterMap stackblitzMapFont := by
  simp [resolveFonts]

/-- C5 counterexample: on `stackblitz`, the string shorthand
`"Inter:400"` — a descriptor with neither a local path nor an embedded
key — is not dropped: it is silently (no warning) substituted with the
bundled Inter server-asset descriptor, contradicting the claim that every
such descriptor is dropped with a warning. -/
theorem c5_counterexample_inter_substituted :
    resolveFonts "stackblitz" [InputFontConfig.str "Inter:400"] =
      [InputFontConfig.font "Inter" "400" none
        (some "nuxt-og-image:fonts:inter-latin-ext-400-normal.woff")] ∧
      stackblitzWarn (InputFontConfig.str "Inter:400") = false := by
  decide

/-- C5 (amended): on `stackblitz`, a record descriptor with a truthy path
or key is kept; a record descriptor with neither is dropped with a
warning; a string shorthand not starting with `Inter:` is dropped with a
warning; an `Inter:*` shorthand is rewritten without any warning to the
bundled server-asset descriptor — and no string shorthand ever survives
into the resolved list. -/
theorem c5_stackblitz_font_filter (fonts : List InputFontConfig)
    (n w s : String) (p k : Option String) :
    ((!truthyOpt p && !truthyOpt k) = false →
      fonts.isEmpty = false →
      InputFontConfig.font n w p k ∈ fonts →
      InputFontConfig.font n w p k ∈ resolveFonts "stackblitz" fonts) ∧
    ((!truthyOpt p && !truthyOpt k) = true →
      stackblitzWarn (InputFontConfig.font n w p k) = true ∧
      InputFontConfig.font n w p k ∉ resolveFonts "stackblitz" fonts) ∧
    (jsStartsWith s "Inter:" = false →
      stackblitzWarn (InputFontConfig.str s) = true) ∧
    (jsStartsWith s "Inter:" = true →
      stackblitzWarn (InputFontConfig.str s) = false) ∧
    InputFontConfig.str s ∉ resolveFonts "stackblitz" fonts := by
  refine ⟨?_, ?_, ?_, ?_, ?_⟩
  · intro hcond hne hmem
    rw [resolveFonts_stackblitz, List.mem_filterMap]
    refine ⟨InputFontConfig.font n w p k, by simp [hne, hmem], ?_⟩
    simp [stackblitzMapFont, stackblitzMapFontW, hcond]
  · intro hcond
    have hcond' := hcond
    rw [Bool.and_eq_true, Bool.not_eq_true', Bool.not_eq_true'] at hcond'
    obtain ⟨hpf, hkf⟩ := hcond'
    refine ⟨by simp [stackblitzWarn, stackblitzMapFontW, hcond], ?_⟩
    intro hmem
    rw [resolveFonts_stackblitz, List.mem_filterMap] at hmem
    obtain ⟨a, _, ha⟩ := hmem
    cases a with
    | str sa =>
      by_cases hi : jsStartsWith sa "Inter:" = true
      · simp only [stackblitzMapFont, stackblitzMapFontW, hi, if_true,
          Option.some.injEq, InputFontConfig.font.injEq] at ha
        obtain ⟨hn1, hw1, hp1, hk1⟩ := ha
        rw [← hk1, truthyOpt, interKey_ne_empty] at hkf
        cases hkf
      · simp [stackblitzMapFont, stackblitzMapFontW, hi] at ha
    | font na wa pa ka =>
      by_cases hca : (!truthyOpt pa && !truthyOpt ka) = true
      · simp [stackblitzMapFont, stackblitzMapFontW, hca] at ha
      · simp only [stackblitzMapFont, stackblitzMapFontW, hca, Bool.false_eq_true, if_false,
          Option.some.injEq, InputFontConfig.font.injEq] at ha
        obtain ⟨hn1, hw1, hp1, hk1⟩ := ha
        rw [hp1, hk1] at hca
        exact hca hcond
  · intro hi
    simp [stackblitzWarn, stackblitzMapFontW, hi]
  · intro hi
    simp [stackblitzWarn, stackblitzMapFontW, hi]
  · intro hmem
    rw [resolveFonts_stackblitz, List.mem_filterMap] at hmem
    obtain ⟨a, _, ha⟩ := hmem
    cases a with
    | str sa =>
      by_cases hi : jsStartsWith sa "Inter:" = true
      · simp [stackblitzMapFont, stackblitzMapFontW, hi] at ha
      · simp [stackblitzMapFont, stackblitzMapFontW, hi] at ha
    | font na wa pa ka =>
      by_cases hca : (!truthyOpt pa && !truthyOpt ka) = true
      · simp [stackblitzMapFont, stackblitzMapFontW, hca] at ha
      · simp [stackblitzMapFont, stackblitzMapFontW, hca] at ha

/-- C6: on every preset, an empty configured font list gets the built-in
Inter default pair injected, so the resolved list — and hence the
normalised font manifest handed to rendering — is non-empty (on
`stackblitz` the injected pair survives as the bundled Inter assets). -/
theorem c6_default_fonts_injected (preset : String) :
    resolveFonts preset [] ≠ [] ∧ (resolveFonts preset []).map normaliseFont ≠ [] := by
  by_cases hp : (preset == "stackblitz") = true
  · have h : resolveFonts preset [] =
        [InputFontConfig.font "Inter" "400" none
          (some "nuxt-og-image:fonts:inter-latin-ext-400-normal.woff"),
         InputFontConfig.font "Inter" "700" none
          (some "nuxt-og-image:fonts:inter-latin-ext-700-normal.woff")] := by
      simp only [resolveFonts, List.isEmpty_nil, if_true, hp]
      decide
    rw [h]
    exact ⟨by simp, by simp⟩
  · have h : resolveFonts preset [] =
        [InputFontConfig.str "Inter:400", InputFontConfig.str "Inter:700"] := by
      simp only [resolveFonts, List.isEmpty_nil, if_true, hp, Bool.false_eq_true, if_false]
    rw [h]
    exact ⟨by simp, by simp⟩

/-- C7 counterexample: normalising the shorthand `"Inter:700"` yields a
descriptor with the right name and weight but carrying no key of any
kind — `path` and `key` are both absent — rather than one "carrying a
remote-fetch key" as the claim states (the code has no remote-fetch key
field; remote fetch is implied by the absence of both source fields). -/
theorem c7_counterexample_no_remote_key :
    normaliseFont (InputFontConfig.str "Inter:700") =
      { name := "Inter", weight := some "700", path := none, key := none } ∧
    (normaliseFont (InputFontConfig.str "Inter:700")).path = none ∧
    (normaliseFont (InputFontConfig.str "Inter:700")).key = none := by
  decide

/-- C7 (amended): a string shorthand splitting as `Name:weight`
normalises to a descriptor named `Name` with weight `weight` and with
neither a local path nor a key; such path-less, key-less descriptors are
exactly the ones scheduled for remote fetching via a prerendered
`/__og-image__/font/Name/weight.ttf` route. -/
theorem c7_shorthand_normalisation (s nm w : String)
    (hsplit : jsSplit ':' s = [nm, w]) :
    normaliseFont (InputFontConfig.str s) =
      { name := nm, weight := some w, path := none, key := none } ∧
    prerenderFontRoutes [normaliseFont (InputFontConfig.str s)] =
      ["/__og-image__/font/" ++ nm ++ "/" ++ w ++ ".ttf"] := by
  have h1 : normaliseFont (InputFontConfig.str s) =
      { name := nm, weight := some w, path := none, key := none } := by
    simp [normaliseFont, hsplit]
  refine ⟨h1, ?_⟩
  rw [h1]
  simp [prerenderFontRoutes, truthyOpt, jsStr]

/-- Witness for C7 (amended), at the spec's own example `"Inter:700"`. -/
theorem c7_shorthand_normalisation_witness :
    normaliseFont (InputFontConfig.str "Inter:700") =
      { name := "Inter", weight := some "700", path := none, key := none } ∧
    prerenderFontRoutes [normaliseFont (InputFontConfig.str "Inter:700")] =
      ["/__og-image__/font/" ++ "Inter" ++ "/" ++ "700" ++ ".ttf"] :=
  c7_shorthand_normalisation "Inter:700" "Inter" "700" (by decide)

/-- Witness for C5 (amended): a pathed record is kept, a source-less
record and a non-Inter shorthand are dropped with a warning, the Inter
shorthand is rewritten without warning, and no shorthand survives. -/
theorem c5_stackblitz_font_filter_witness :
    (InputFontConfig.font "MyFont" "400" (some "/fonts/my.ttf") none ∈
      resolveFonts "stackblitz" [InputFontConfig.font "MyFont" "400" (some "/fonts/my.ttf") none]) ∧
    stackblitzWarn (InputFontConfig.str "Roboto:400") = true ∧
    (stackblitzWarn (InputFontConfig.font "NoSrc" "400" none none) = true ∧
      InputFontConfig.font "NoSrc" "400" none none ∉
        resolveFonts "stackblitz" [InputFontConfig.font "NoSrc" "400" none none]) ∧
    stackblitzWarn (InputFontConfig.str "Inter:400") = false ∧
    InputFontConfig.str "Roboto:400" ∉
      resolveFonts "stackblitz" [InputFontConfig.str "Roboto:400"] := by
  have h1 := c5_stackblitz_font_filter
    [InputFontConfig.font "MyFont" "400" (some "/fonts/my.ttf") none]
    "MyFont" "400" "Roboto:400" (some "/fonts/my.ttf") none
  have h2 := c5_stackblitz_font_filter
    [InputFontConfig.font "NoSrc" "400" none none]
    "NoSrc" "400" "Inter:400" none none
  have h3 := c5_stackblitz_font_filter
    [InputFontConfig.str "Roboto:400"] "u" "u" "Roboto:400" none none
  exact ⟨h1.1 (by decide) (by decide) (by decide),
    h1.2.2.1 (by decide),
    h2.2.1 (by decide),
    h2.2.2.2.1 (by decide),
    h3.2.2.2.2⟩

/-- C1 counterexample: take a preset whose static table marks chromium
unavailable, with Chrome installed locally and no playwright. The probe
result enables chromium for the `dev` (and `prerender`) phase even though
the static table marks it unavailable — the probe widened, rather than
only narrowed, the static table's claim. -/
theorem c1_counterexample_dev_chromium_widened :
    (SetupEnv.bindings ⟨"cloudflare-pages", ⟨true, false⟩, true, true, false⟩).chromium
        = false ∧
    (resolvePhase (SetupEnv.bindings ⟨"cloudflare-pages", ⟨true, false⟩, true, true, false⟩)
      ((setupCompat ⟨"cloudflare-pages", ⟨true, false⟩, true, true, false⟩
        none "satori" {}).dev)).chromium = true ∧
    (resolvePhase (SetupEnv.bindings ⟨"cloudflare-pages", ⟨true, false⟩, true, true, false⟩)
      ((setupCompat ⟨"cloudflare-pages", ⟨true, false⟩, true, true, false⟩
        none "satori" {}).prerender)).chromium = true := by
  decide

/-- C1 (amended): starting from an unset user compatibility config, the
probes are narrow-only for the sharp engine in every phase and for
chromium in the runtime phase: those resolve as available only if the
static preset table marks the engine available. For the dev and prerender
phases, however, chromium resolves as available only if the static table
marks it available or a local Chrome install was detected — the
local-Chrome probe widens those two phases. -/
theorem c1_narrow_only (env : SetupEnv) (userExt : Option String) (renderer : String) :
    ((resolvePhase env.bindings (setupCompat env userExt renderer {}).runtime).chromium = true →
      env.bindings.chromium = true) ∧
    ((resolvePhase env.bindings (setupCompat env userExt renderer {}).runtime).sharp = true →
      env.bindings.sharp = true) ∧
    ((resolvePhase env.bindings (setupCompat env userExt renderer {}).dev).sharp = true →
      env.bindings.sharp = true) ∧
    ((resolvePhase env.bindings (setupCompat env userExt renderer {}).prerender).sharp = true →
      env.bindings.sharp = true) ∧
    ((resolvePhase env.bindings (setupCompat env userExt renderer {}).dev).chromium = true →
      env.bindings.chromium = true ∨ env.hasChromeLocally = true) ∧
    ((resolvePhase env.bindings (setupCompat env userExt renderer {}).prerender).chromium = true →
      env.bindings.chromium = true ∨ env.hasChromeLocally = true) := by
  obtain ⟨p, ⟨bs, bc⟩, hs, hc, hp⟩ := env
  cases hj : hasConfiguredJpegs userExt <;>
    cases hr : renderer == "chromium" <;>
      cases bs <;> cases bc <;> cases hs <;> cases hc <;> cases hp <;>
        simp [setupCompat, sharpStageNew, chromiumStage, resolvePhase,
          defuCompat, defuOverride, defuField, hj, hr]

/-- Witness for C1 (amended): with playwright present, no local Chrome
and a fully capable static table, every resolved availability is `true`
and the amended theorem pins each back to the static table (or, for
dev/prerender chromium, to the table-or-local-Chrome disjunction). -/
theorem c1_narrow_only_witness :
    (Bindings.mk true true).chromium = true ∧
    (Bindings.mk true true).sharp = true ∧
    ((Bindings.mk true true).chromium = true ∨
      (SetupEnv.hasChromeLocally ⟨"node-server", ⟨true, true⟩, true, false, true⟩) = true) := by
  have h := c1_narrow_only ⟨"node-server", ⟨true, true⟩, true, false, true⟩ none "satori"
  exact ⟨h.1 (by decide), h.2.1 (by decide), h.2.2.2.2.1 (by decide)⟩

/-- C2 counterexample: the user configures `jpeg` with the satori
renderer on a target whose static table lacks sharp while sharp is
installed locally. The claim says setup downgrades the default output
format to `png`; the newer `setup` leaves `config.defaults.extension` at
`jpeg` (it warns and force-disables runtime sharp instead). -/
theorem c2_counterexample_extension_kept :
    (sharpStageNew ⟨"netlify-edge", ⟨false, false⟩, true, true, false⟩
      (some "jpeg") "satori" {}).extension = "jpeg" ∧
    ("jpeg" : String) ≠ "png" ∧
    (sharpStageNew ⟨"netlify-edge", ⟨false, false⟩, true, true, false⟩
      (some "jpeg") "satori" {}).warnings ≠ [] := by
  refine ⟨by decide, by decide, by decide⟩

/-- C2 (amended): when the user explicitly configures `jpeg`/`jpg` with a
non-chromium renderer on a target whose static table lacks sharp (sharp
being installed locally), the newer `setup` keeps the configured
extension, force-disables the sharp binding for the runtime phase and
warns, while the older variant downgrades the default extension to `png`
and warns; in both cases setup proceeds (the font server handler is still
registered) rather than failing. -/
theorem c2_jpeg_downgrade (env : SetupEnv) (ext renderer : String)
    (c : CompatibilityConfig) (cfgDebug : Bool) (fonts : List InputFontConfig)
    (nxDev nxGen nxBuild nxContent : Bool)
    (hext : (ext == "jpeg" || ext == "jpg") = true)
    (hrend : (renderer == "chromium") = false)
    (hsharp : env.bindings.sharp = false)
    (hdep : env.hasSharpDependency = true) :
    (sharpStageNew env (some ext) renderer c).extension = ext ∧
    (sharpStageNew env (some ext) renderer c).compat.runtime.sharp = some false ∧
    (sharpStageNew env (some ext) renderer c).warnings ≠ [] ∧
    (sharpStageOld env.bindings.sharp (some ext) renderer).extension = "png" ∧
    (sharpStageOld env.bindings.sharp (some ext) renderer).warnings ≠ [] ∧
    Effect.serverHandler "/__og-image__/font/**" ∈
      setupEffects ⟨true, cfgDebug, some ext, renderer, fonts⟩
        ⟨true, nxDev, nxGen, nxBuild, nxContent⟩ env := by
  have hj : hasConfiguredJpegs (some ext) = true := by
    simp [hasConfiguredJpegs, hext]
  refine ⟨?_, ?_, ?_, ?_, ?_, ?_⟩
  · simp [sharpStageNew, hj, hrend, hsharp, hdep]
  · simp [sharpStageNew, hj, hrend, hsharp, hdep, defuCompat, defuOverride, defuField]
  · simp [sharpStageNew, hj, hrend, hsharp, hdep]
  · simp [sharpStageOld, hrend, hsharp]
  · simp [sharpStageOld, hrend, hsharp, hj]
  · simp [setupEffects]

/-- Witness for C2 (amended) at `jpeg` + satori on a sharp-less target
with sharp installed. -/
theorem c2_jpeg_downgrade_witness :
    (sharpStageNew ⟨"netlify-edge", ⟨false, false⟩, true, true, false⟩
      (some "jpeg") "satori" {}).extension = "jpeg" ∧
    (sharpStageNew ⟨"netlify-edge", ⟨false, false⟩, true, true, false⟩
      (some "jpeg") "satori" {}).compat.runtime.sharp = some false ∧
    (sharpStageNew ⟨"netlify-edge", ⟨false, false⟩, true, true, false⟩
      (some "jpeg") "satori" {}).warnings ≠ [] ∧
    (sharpStageOld (SetupEnv.bindings ⟨"netlify-edge", ⟨false, false⟩, true, true, false⟩).sharp
      (some "jpeg") "satori").extension = "png" ∧
    (sharpStageOld (SetupEnv.bindings ⟨"netlify-edge", ⟨false, false⟩, true, true, false⟩).sharp
      (some "jpeg") "satori").warnings ≠ [] ∧
    Effect.serverHandler "/__og-image__/font/**" ∈
      setupEffects ⟨true, false, some "jpeg", "satori", []⟩
        ⟨true, false, false, true, false⟩
        ⟨"netlify-edge", ⟨false, false⟩, true, true, false⟩ :=
  c2_jpeg_downgrade ⟨"netlify-edge", ⟨false, false⟩, true, true, false⟩
    "jpeg" "satori" {} false [] false false true false
    (by decide) (by decide) (by decide) (by decide)

/-- C9: a concrete environment on which the two variants disagree about
chromium availability: a chromium-capable preset, Chrome installed
locally, no playwright, and user opt-in. The newer variant force-disables
runtime chromium (`some false` override, resolving to unavailable), while
the older variant leaves its `runtimeChromium` flag enabled. -/
theorem c9_variants_diverge_on_chromium :
    (setupCompat ⟨"node-server", ⟨true, true⟩, true, true, false⟩
      none "satori" {}).runtime.chromium = some false ∧
    (resolvePhase ⟨true, true⟩
      ((setupCompat ⟨"node-server", ⟨true, true⟩, true, true, false⟩
        none "satori" {}).runtime)).chromium = false ∧
    runtimeChromiumOld true true = true := by
  decide

/-- C8 counterexample: with the debug flag unset but Nuxt in dev mode
(and the module enabled with SSR on), the `debug.json` server handler is
still registered — contradicting the claim that it is registered only
when the debug flag is set. -/
theorem c8_counterexample_dev_registers_debug :
    (ModuleConfig.debug ⟨true, false, none, "satori", []⟩ = false) ∧
    Effect.serverHandler "/__og-image__/debug.json" ∈
      setupEffects ⟨true, false, none, "satori", []⟩
        ⟨true, true, false, false, false⟩
        ⟨"node-server", ⟨true, true⟩, true, true, false⟩ := by
  decide

set_option maxHeartbeats 1600000 in
/-- C8 (amended): once setup proceeds (module enabled, SSR on), the
`debug.json` server handler is registered if and only if the debug flag
is set or Nuxt is in dev mode. -/
theorem c8_debug_handler_iff (cfg : ModuleConfig) (nx : NuxtOptions) (env : SetupEnv)
    (hen : cfg.enabled = true) (hssr : nx.ssr = true) :
    (Effect.serverHandler "/__og-image__/debug.json" ∈ setupEffects cfg nx env ↔
      (cfg.debug = true ∨ nx.dev = true)) := by
  constructor
  · intro hmem
    by_cases hd : (cfg.debug || nx.dev) = true
    · rcases Bool.or_eq_true_iff.mp hd with h | h
      · exact Or.inl h
      · exact Or.inr h
    · exfalso
      rw [Bool.or_eq_true_iff, not_or] at hd
      obtain ⟨hd1, hd2⟩ := hd
      rw [Bool.not_eq_true] at hd1 hd2
      simp only [setupEffects, hen, hssr, hd1, hd2, Bool.or_self,
        Bool.false_eq_true, if_false] at hmem
      split_ifs at hmem <;>
        simp only [List.mem_append, List.mem_map, List.mem_cons, List.mem_singleton,
          List.not_mem_nil, List.mem_filter, List.append_nil, List.nil_append,
          Effect.serverHandler.injEq, reduceCtorEq, exists_false, and_false,
          false_and, exists_const, or_false, false_or, or_self] at hmem <;>
        simp_all
  · intro hor
    have hd : (cfg.debug || nx.dev) = true := by
      rcases hor with h | h <;> simp [h]
    simp [setupEffects, hen, hssr, hd]

/-- Witness for C8 (amended): with debug set (not dev), the handler is
registered; the reverse direction recovers the flag disjunction. -/
theorem c8_debug_handler_iff_witness :
    Effect.serverHandler "/__og-image__/debug.json" ∈
      setupEffects ⟨true, true, none, "satori", []⟩
        ⟨true, false, false, false, false⟩
        ⟨"node-server", ⟨true, true⟩, true, true, false⟩ :=
  (c8_debug_handler_iff ⟨true, true, none, "satori", []⟩
    ⟨true, false, false, false, false⟩
    ⟨"node-server", ⟨true, true⟩, true, true, false⟩
    (by decide) (by decide)).mpr (Or.inl (by decide))

/-- C10: if the module is disabled, setup emits exactly the debug log and
nothing else; if it is enabled with SSR off, setup emits exactly the SSR
warning and nothing else — in particular no handler, component, plugin,
composable import, template, or runtime-config effect is produced in
either case. -/
theorem c10_early_return_no_effects (cfg : ModuleConfig) (nx : NuxtOptions) (env : SetupEnv) :
    (cfg.enabled = false → setupEffects cfg nx env = [Effect.log disabledMsg]) ∧
    (cfg.enabled = true → nx.ssr = false →
      setupEffects cfg nx env = [Effect.warn ssrWarnMsg]) ∧
    ((cfg.enabled = false ∨ nx.ssr = false) →
      (setupEffects cfg nx env).all Effect.isMessageOnly = true) := by
  refine ⟨?_, ?_, ?_⟩
  · intro h
    simp [setupEffects, h]
  · intro h1 h2
    simp [setupEffects, h1, h2]
  · intro h
    rcases h with h | h
    · simp [setupEffects, h, Effect.isMessageOnly]
    · by_cases he : cfg.enabled = true
      · simp [setupEffects, he, h, Effect.isMessageOnly]
      · rw [Bool.not_eq_true] at he
        simp [setupEffects, he, Effect.isMessageOnly]

/-- Witness for C10: a disabled config yields only the debug log; an
enabled config without SSR yields only the warning. -/
theorem c10_early_return_no_effects_witness :
    setupEffects ⟨false, false, none, "satori", []⟩
        ⟨true, false, false, false, false⟩
        ⟨"node-server", ⟨true, true⟩, true, true, false⟩ = [Effect.log disabledMsg] ∧
    setupEffects ⟨true, false, none, "satori", []⟩
        ⟨false, false, false, false, false⟩
        ⟨"node-server", ⟨true, true⟩, true, true, false⟩ = [Effect.warn ssrWarnMsg] ∧
    (setupEffects ⟨false, false, none, "satori", []⟩
        ⟨true, false, false, false, false⟩
        ⟨"node-server", ⟨true, true⟩, true, true, false⟩).all Effect.isMessageOnly = true :=
  ⟨(c10_early_return_no_effects ⟨false, false, none, "satori", []⟩
      ⟨true, false, false, false, false⟩
      ⟨"node-server", ⟨true, true⟩, true, true, false⟩).1 rfl,
    (c10_early_return_no_effects ⟨true, false, none, "satori", []⟩
      ⟨false, false, false, false, false⟩
      ⟨"node-server", ⟨true, true⟩, true, true, false⟩).2.1 rfl rfl,
    (c10_early_return_no_effects ⟨false, false, none, "satori", []⟩
      ⟨true, false, false, false, false⟩
      ⟨"node-server", ⟨true, true⟩, true, true, false⟩).2.2 (Or.inl rfl)⟩
